import Mathlib

/-! Verification of onenote-dump against its specification.

The definitions below are shallow embeddings of the Python source files
`src/onenote_dump/onenote.py`, `src/onenote_dump/onenote_auth.py` and
`src/onenote_dump/interactor.py`.  Network I/O is modelled by passing the
sequence of outcomes the network would produce; the filesystem is modelled
by explicit state passing.
-/

namespace OnenoteDump

/-! Resilient fetcher (`onenote.py`: `_get`, `_inner_get`,
`_is_too_many_requests_condition_only`, `MIN_RETRY_WAIT`) -/

/-- An HTTP response as seen by `_inner_get`.  Only the status code matters
for the fetcher's control flow (429 detection and `raise_for_status`). -/
structure Resp where
  status : Nat
  deriving DecidableEq, Repr

/-- The outcome of one underlying `session.get(url)` call: a response with a
status code, or a transport-level failure (connection error etc.). -/
inductive Attempt where
  | resp (status : Nat)
  | transport
  deriving DecidableEq, Repr

/-- The exceptions `_inner_get` can raise: `requests.exceptions.HTTPError`
carrying the response's status code (raised by `raise_for_status` on any
status `>= 400`), or a non-HTTP transport error. -/
inductive FetchErr where
  | httpError (status : Nat)
  | transportError
  deriving DecidableEq, Repr

/-- Constant `MIN_RETRY_WAIT = timedelta(minutes=1).total_seconds()`, in seconds. -/
def MIN_RETRY_WAIT : Nat := 60

/-- Predicate `_is_too_many_requests_condition_only(e)`: true iff `e` is an
`HTTPError` whose response has status code 429. -/
def is_too_many_requests_condition_only : FetchErr → Bool
  | .httpError s => s == 429
  | .transportError => false

/-- One execution of `_inner_get`: perform the GET; `r.raise_for_status()`
raises `HTTPError` for any status `>= 400`, otherwise the response is
returned. -/
def innerGet : Attempt → Except FetchErr Resp
  | .resp st => if 400 ≤ st then .error (.httpError st) else .ok ⟨st⟩
  | .transport => .error .transportError

/-- tenacity's `wait_exponential(min=minW, max=maxW)` with the default
multiplier 1 and exponent base 2: the sleep before the attempt following
failed attempt number `attemptNumber` is
`max(max(0, min), min(2 ** attempt_number, max))`. -/
def wait_exponential (minW maxW attemptNumber : Nat) : Nat :=
  max (max 0 minW) (min (2 ^ attemptNumber) maxW)

/-- The tenacity `@retry(retry=retry_if_exception(_is_too_many_requests_condition_only),
wait=wait_exponential(min=MIN_RETRY_WAIT, max=MIN_RETRY_WAIT*10), reraise=True)`
loop around `_inner_get`.  `attempts` is the script of outcomes the network
produces for the successive attempts and `n` the tenacity attempt number of
the next attempt (starting at 1).  Returns the final outcome (returned
response or re-raised exception) together with the list of back-off sleeps
performed; `none` means the script ran out while the loop was still
retrying (the decorator has no `stop` argument, hence no retry-count
limit). -/
def getLoop : List Attempt → Nat → Option (Except FetchErr Resp × List Nat)
  | [], _ => none
  | a :: rest, n =>
    match innerGet a with
    | .ok r => some (.ok r, [])
    | .error e =>
      if is_too_many_requests_condition_only e then
        match getLoop rest (n + 1) with
        | some (res, sleeps) =>
            some (res, wait_exponential MIN_RETRY_WAIT (MIN_RETRY_WAIT * 10) n :: sleeps)
        | none => none
      else
        some (.error e, [])

/-- Function `_get(s, url)`: run the retry loop, tenacity attempt numbers start
at 1. -/
def resilient_get (attempts : List Attempt) : Option (Except FetchErr Resp × List Nat) :=
  getLoop attempts 1

/-- Helper: the retry loop resolves at the first attempt whose outcome is
not a retryable (429) error, for any starting attempt number. -/
theorem getLoop_resolves (a : Attempt) (rest : List Attempt)
    (ha : ∀ e, innerGet a = Except.error e → is_too_many_requests_condition_only e = false) :
    ∀ (pre : List Attempt) (n : Nat), (∀ x ∈ pre, x = Attempt.resp 429) →
      ∃ sleeps, getLoop (pre ++ a :: rest) n = some (innerGet a, sleeps) ∧
        sleeps.length = pre.length := by
  intro pre
  induction pre with
  | nil =>
    intro n _
    refine ⟨[], ?_, rfl⟩
    cases h : innerGet a with
    | ok r => simp [getLoop, h]
    | error e => simp [getLoop, h, ha e h]
  | cons x xs ih =>
    intro n hx
    have hx429 : x = Attempt.resp 429 := hx x (List.mem_cons_self x xs)
    obtain ⟨sleeps, hrec, hlen⟩ := ih (n + 1) (fun y hy => hx y (List.mem_cons_of_mem x hy))
    subst hx429
    refine ⟨wait_exponential MIN_RETRY_WAIT (MIN_RETRY_WAIT * 10) n :: sleeps, ?_, ?_⟩
    · have h429 : innerGet (Attempt.resp 429) = Except.error (FetchErr.httpError 429) := rfl
      simp [getLoop, h429, is_too_many_requests_condition_only, hrec]
    · simp [hlen]

/-- C1: in `_get`, an HTTP 429 response is the only retryable condition and
there is no retry-count limit: after any number of leading 429 responses,
the first attempt whose outcome is not a 429 `HTTPError` settles the call —
a success is returned and any other HTTP error or transport failure is
re-raised right there (in particular with zero retries when it happens on
the first attempt), with exactly one back-off sleep per preceding 429. -/
theorem get_retries_only_on_429 (pre : List Attempt) (a : Attempt) (rest : List Attempt)
    (hpre : ∀ x ∈ pre, x = Attempt.resp 429)
    (ha : ∀ e, innerGet a = Except.error e → is_too_many_requests_condition_only e = false) :
    ∃ sleeps, resilient_get (pre ++ a :: rest) = some (innerGet a, sleeps) ∧
      sleeps.length = pre.length :=
  getLoop_resolves a rest ha pre 1 hpre

/-- Witness for C1: two 429 responses followed by a 200 yield the 200 after
exactly two retries. -/
theorem get_retries_only_on_429_witness :
    ∃ sleeps,
      resilient_get [Attempt.resp 429, Attempt.resp 429, Attempt.resp 200] =
        some (innerGet (Attempt.resp 200), sleeps) ∧ sleeps.length = 2 :=
  get_retries_only_on_429 [Attempt.resp 429, Attempt.resp 429] (Attempt.resp 200) []
    (by decide)
    (fun e h => by rw [show innerGet (Attempt.resp 200) = Except.ok ⟨200⟩ from rfl] at h; cases h)

/-- C5 counterexample: on three 429 responses followed by a 200, `_get`
returns the 200 but the three back-off sleeps are 60, 60, 60 seconds —
equal, not strictly increasing (tenacity clamps `2 ** n` to the floor of 60
for the first attempts), refuting the claimed strict increase. -/
theorem backoff_not_strictly_increasing :
    resilient_get [Attempt.resp 429, Attempt.resp 429, Attempt.resp 429, Attempt.resp 200] =
      some (Except.ok ⟨200⟩, [60, 60, 60]) ∧
    ¬ List.Chain' (· < ·) [60, 60, 60] := by
  exact ⟨rfl, by simp [List.chain'_cons, List.chain'_singleton]⟩

/-- C5 (amended): the back-off waits are `2 ** attempt_number` clamped to
the floor `MIN_RETRY_WAIT = 60` and ceiling `600`; they are non-decreasing
(not strictly increasing: the first few are all 60).  On three 429s
followed by a 200, `_get` returns the 200 with sleeps `[60, 60, 60]`, and a
non-429 error on the first attempt is raised immediately with zero
sleeps. -/
theorem backoff_floor_doubling_capped :
    (resilient_get [Attempt.resp 429, Attempt.resp 429, Attempt.resp 429, Attempt.resp 200] =
        some (Except.ok ⟨200⟩, [60, 60, 60]) ∧
      List.Chain' (· ≤ ·) [60, 60, 60] ∧
      ∀ w ∈ [60, 60, 60], MIN_RETRY_WAIT ≤ w ∧ w ≤ MIN_RETRY_WAIT * 10) ∧
    (∀ n, MIN_RETRY_WAIT ≤ wait_exponential MIN_RETRY_WAIT (MIN_RETRY_WAIT * 10) n ∧
        wait_exponential MIN_RETRY_WAIT (MIN_RETRY_WAIT * 10) n ≤ MIN_RETRY_WAIT * 10 ∧
        wait_exponential MIN_RETRY_WAIT (MIN_RETRY_WAIT * 10) n ≤
          wait_exponential MIN_RETRY_WAIT (MIN_RETRY_WAIT * 10) (n + 1)) ∧
    (∀ (a : Attempt) (rest : List Attempt) (e : FetchErr),
        innerGet a = Except.error e → is_too_many_requests_condition_only e = false →
        resilient_get (a :: rest) = some (Except.error e, [])) := by
  refine ⟨⟨rfl, by simp [List.chain'_cons, List.chain'_singleton], by decide⟩, ?_, ?_⟩
  · intro n
    refine ⟨le_trans (le_max_right 0 MIN_RETRY_WAIT) (le_max_left _ _), ?_, ?_⟩
    · exact max_le (max_le (Nat.zero_le _) (by norm_num [MIN_RETRY_WAIT]))
        (min_le_right _ _)
    · exact max_le_max le_rfl
        (min_le_min (Nat.pow_le_pow_right (by norm_num) (Nat.le_succ n)) le_rfl)
  · intro a rest e he hn
    simp [resilient_get, getLoop, he, hn]

/-- Witness for C5 (amended): a transport error on the first attempt is
raised immediately with zero sleeps. -/
theorem backoff_floor_doubling_capped_witness :
    resilient_get [Attempt.transport] = some (Except.error FetchErr.transportError, []) :=
  backoff_floor_doubling_capped.2.2 Attempt.transport [] FetchErr.transportError rfl rfl

/-! Python string containment (`needle in hay`) -/

/-- Substring test on character lists: does the haystack have a contiguous
sub-list equal to `needle`?  Models Python's `in` operator on strings. -/
def listContainsSub (needle : List Char) : List Char → Bool
  | [] => needle.isEmpty
  | c :: rest => needle.isPrefixOf (c :: rest) || listContainsSub needle rest

/-- Python's `needle in hay` on strings. -/
def strContains (hay needle : String) : Bool :=
  listContainsSub needle.data hay.data

/-! Token store (`onenote_auth.py`: `_save_token`, `_load_token`,
`_delete_token`) -/

/-- The field of the saved token record the session logic inspects:
`expires_at`, an absolute epoch timestamp in seconds. -/
structure Token where
  expires_at : Int
  deriving DecidableEq, Repr

/-- A local I/O failure (Python `IOError`). -/
inductive IOErr where
  | ioError
  deriving DecidableEq, Repr

/-- Observable behaviour of one `_save_token` call. -/
structure SaveOutcome where
  raised : Option IOErr
  writes : Nat
  loggedError : Bool
  deriving DecidableEq, Repr

def isErrorWrite : Except IOErr Unit → Bool
  | .error _ => true
  | .ok _ => false

/-- Function `_save_token(token)`, given the outcome of its single
`token_path.write_text(json.dumps(token))` call: the `try/except IOError`
catches a write failure and only logs it (`effective_logger.error(...)`);
nothing is re-raised and no second write is attempted. -/
def save_token (writeResult : Except IOErr Unit) : SaveOutcome :=
  match writeResult with
  | .ok _ => { raised := none, writes := 1, loggedError := false }
  | .error _ => { raised := none, writes := 1, loggedError := true }

/-- C8 counterexample: when the underlying write fails with an `IOError`,
`_save_token` raises nothing at all (the error is absorbed by its
`except IOError` branch), contradicting the claim that the save operation
raises the underlying I/O error to the caller. -/
theorem save_token_absorbs_io_error :
    (save_token (Except.error IOErr.ioError)).raised = none ∧
    (save_token (Except.error IOErr.ioError)).raised ≠ some IOErr.ioError := by
  decide

/-- C8 (amended): saving the token has no retry semantics — exactly one
write attempt is made — and a local I/O failure during save is caught and
logged inside `_save_token` rather than being propagated: the call always
returns normally. -/
theorem save_token_no_retry_absorbs_errors :
    ∀ w : Except IOErr Unit, (save_token w).writes = 1 ∧ (save_token w).raised = none ∧
      (save_token w).loggedError = isErrorWrite w := by
  intro w
  cases w <;> simp [save_token, isErrorWrite]

/-- The errors `_load_token` can raise: `FileNotFoundError` (re-raised as
is) when the token file is absent, and `IOError("Corrupted token file:
...")` when reading or `json.loads` fails. -/
inductive TokenLoadErr where
  | notFound
  | corrupt
  deriving DecidableEq, Repr

/-- Function `_delete_token()`: unlink the token file, suppressing
`FileNotFoundError`; afterwards the file is gone.  (An `OSError` during
unlink is also only logged; the model takes the unlink itself to
succeed.) -/
def delete_token (_fs : Option String) : Option String :=
  none

/-- Function `_load_token()` over an explicit filesystem state `fs` (the token
file's contents, or `none` if absent) and a parse function modelling
`json.loads` on the stored bytes: returns the outcome together with the
filesystem state afterwards.  On a parse failure the code logs, calls
`_delete_token()` and raises the corrupt-token `IOError`. -/
def load_token (parse : String → Option Token) (fs : Option String) :
    Except TokenLoadErr Token × Option String :=
  match fs with
  | none => (.error .notFound, none)
  | some raw =>
    match parse raw with
    | some t => (.ok t, some raw)
    | none => (.error .corrupt, delete_token (some raw))

/-- C7: loading fails with `FileNotFoundError` when the token file is
absent and with the corrupt-token `IOError` when the stored bytes do not
parse; in the corrupt case the bad file is deleted, so loading again from
the resulting state fails with `FileNotFoundError` rather than the
corrupt-token error. -/
theorem load_token_notfound_corrupt_delete (parse : String → Option Token) :
    load_token parse none = (Except.error TokenLoadErr.notFound, none) ∧
    (∀ raw, parse raw = none →
      load_token parse (some raw) = (Except.error TokenLoadErr.corrupt, none) ∧
      load_token parse (load_token parse (some raw)).2 =
        (Except.error TokenLoadErr.notFound, none)) := by
  refine ⟨rfl, ?_⟩
  intro raw hraw
  simp [load_token, delete_token, hraw]

/-- Witness for C7: a concrete parse function that rejects the stored
bytes exhibits the corrupt-then-deleted-then-not-found behaviour. -/
theorem load_token_notfound_corrupt_delete_witness :
    load_token (fun _ => (none : Option Token)) (some "garbage") =
      (Except.error TokenLoadErr.corrupt, none) ∧
    load_token (fun _ => (none : Option Token))
        (load_token (fun _ => (none : Option Token)) (some "garbage")).2 =
      (Except.error TokenLoadErr.notFound, none) :=
  (load_token_notfound_corrupt_delete (fun _ => none)).2 "garbage" rfl

/-! Session provider (`onenote_auth.py`: `get_session`,
`session_from_saved_token`) -/

/-- What loading the saved token can yield, as observed by
`session_from_saved_token`. -/
inductive LoadOutcome where
  | found (t : Token)
  | absent
  | corrupt
  deriving DecidableEq, Repr

/-- The exceptions `session_from_saved_token` can let escape, all caught by
`get_session`'s `except (IOError, TokenExpiredError)`. -/
inductive AuthExc where
  | ioNotFound
  | ioCorrupt
  | tokenExpired
  deriving DecidableEq, Repr

/-- Function `session_from_saved_token(new)`: if `new`, delete the token and raise
`TokenExpiredError`; otherwise load the token (propagating its I/O
errors), and raise `TokenExpiredError` when
`datetime.fromtimestamp(token["expires_at"]) <
datetime.now() + timedelta(minutes=5)` — in epoch seconds,
`expires_at < now + 300`; else return the token the session is bound
to. -/
def session_from_saved_token (new : Bool) (load : LoadOutcome) (now : Int) :
    Except AuthExc Token :=
  if new then .error .tokenExpired
  else
    match load with
    | .absent => .error .ioNotFound
    | .corrupt => .error .ioCorrupt
    | .found t =>
      if t.expires_at < now + 5 * 60 then .error .tokenExpired
      else .ok t

/-- How `get_session` obtains its session: reconstructed from the saved
token (`OAuth2Session(client_id, token=token)`, no network call in the
model), or through the interactive `session_from_user_auth` flow. -/
inductive SessionResult where
  | savedSession (t : Token)
  | userAuthSession
  deriving DecidableEq, Repr

/-- Function `get_session(new)`: try `session_from_saved_token`; on `IOError` or
`TokenExpiredError` fall back to the interactive
`session_from_user_auth`. -/
def get_session (new : Bool) (load : LoadOutcome) (now : Int) : SessionResult :=
  match session_from_saved_token new load now with
  | .ok t => .savedSession t
  | .error _ => .userAuthSession

/-- C3: with a stored token whose `expires_at` lies more than 5 minutes
(300 s) after the current time, `get_session()` returns the session bound
to the loaded token without invoking the interactive authenticator; with a
token expiring within 5 minutes or already expired, or with an absent or
corrupt token file, it falls through to interactive authentication. -/
theorem get_session_token_freshness :
    ∀ (t : Token) (now : Int),
      (now + 5 * 60 < t.expires_at →
        get_session false (LoadOutcome.found t) now = SessionResult.savedSession t) ∧
      (t.expires_at < now + 5 * 60 →
        get_session false (LoadOutcome.found t) now = SessionResult.userAuthSession) ∧
      get_session false LoadOutcome.absent now = SessionResult.userAuthSession ∧
      get_session false LoadOutcome.corrupt now = SessionResult.userAuthSession := by
  intro t now
  refine ⟨?_, ?_, rfl, rfl⟩
  · intro h
    have hnot : ¬ (t.expires_at < now + 300) := by omega
    simp [get_session, session_from_saved_token, hnot]
  · intro h
    have h' : t.expires_at < now + 300 := by omega
    simp [get_session, session_from_saved_token, h']

/-- Witness for C3: at `now = 0`, a token expiring at 1000 s is reused and
one expiring at 100 s forces interactive authentication. -/
theorem get_session_token_freshness_witness :
    get_session false (LoadOutcome.found ⟨1000⟩) 0 = SessionResult.savedSession ⟨1000⟩ ∧
    get_session false (LoadOutcome.found ⟨100⟩) 0 = SessionResult.userAuthSession :=
  ⟨(get_session_token_freshness ⟨1000⟩ 0).1 (by norm_num),
   (get_session_token_freshness ⟨100⟩ 0).2.1 (by norm_num)⟩

/-! Auth redirect listener (`onenote_auth.py`: `AuthHTTPServer.wait_for_auth_redirect`,
`_AuthServerHandler.do_GET`) -/

/-- Pieces of `urlparse(redirect_uri)` for
`redirect_uri = "http://localhost:8000/auth"`. -/
def redirectScheme : String := "http"

def redirectNetloc : String := "localhost:8000"

def redirectPath : String := "/auth"

/-- The static confirmation body `do_GET` writes back to the browser. -/
def confirmation_body : String :=
  "<html><head><title>Authentication Status</title></head><body><p>Authentication successful! You can close this tab and return to the application.</p></body></html>"

/-- Handler `_AuthServerHandler.do_GET`: for any inbound request path, send a 200
response with the static confirmation body and put the path into the
queue.  Returns ((status, body), enqueued path). -/
def do_GET (path : String) : (Nat × String) × String :=
  ((200, confirmation_body), path)

inductive AuthWaitErr where
  | timeout
  deriving DecidableEq, Repr

/-- The full redirect URL reconstructed on a match:
`f"{self.url.scheme}://{self.url.netloc}{path}"` (the captured path keeps
its query string). -/
def fullRedirectUrl (path : String) : String :=
  redirectScheme ++ "://" ++ redirectNetloc ++ path

/-- The `while self.url.path not in path: path = self.queue.get(timeout=120)`
loop of `wait_for_auth_redirect`, over the queue of request paths arriving
within the timeout window (`reqs`); an exhausted queue models
`queue.Empty`, turned into a `TimeoutError`.  Matching is Python substring
containment of the configured path in the dequeued path. -/
def waitLoop : List String → String → Except AuthWaitErr String
  | [], path =>
    if strContains path redirectPath then .ok (fullRedirectUrl path)
    else .error .timeout
  | p :: rest, path =>
    if strContains path redirectPath then .ok (fullRedirectUrl path)
    else waitLoop rest p

/-- Method `wait_for_auth_redirect()`: the loop starts with `path = ""`. -/
def wait_for_auth_redirect (reqs : List String) : Except AuthWaitErr String :=
  waitLoop reqs ""

/-- Helper: when the current path already matches, the loop condition is
false and the reconstructed URL is returned whatever remains queued. -/
theorem waitLoop_of_match (reqs : List String) (path : String)
    (h : strContains path redirectPath = true) :
    waitLoop reqs path = Except.ok (fullRedirectUrl path) := by
  cases reqs <;> simp [waitLoop, h]

/-- Helper: the wait loop returns the reconstruction of the first matching
dequeued path, skipping any non-matching ones. -/
theorem waitLoop_first_match (p : String) (rest : List String)
    (hp : strContains p redirectPath = true) :
    ∀ (pre : List String) (path₀ : String), strContains path₀ redirectPath = false →
      (∀ q ∈ pre, strContains q redirectPath = false) →
      waitLoop (pre ++ p :: rest) path₀ = Except.ok (fullRedirectUrl p) := by
  intro pre
  induction pre with
  | nil =>
    intro path₀ h₀ _
    simp [waitLoop, h₀]
    exact waitLoop_of_match rest p hp
  | cons x xs ih =>
    intro path₀ h₀ hall
    have hx : strContains x redirectPath = false := hall x (List.mem_cons_self x xs)
    simp only [List.cons_append]
    simp [waitLoop, h₀]
    exact ih x hx (fun q hq => hall q (List.mem_cons_of_mem x hq))

/-- Helper: if no dequeued path ever matches, the wait loop times out. -/
theorem waitLoop_timeout :
    ∀ (reqs : List String) (path₀ : String), strContains path₀ redirectPath = false →
      (∀ q ∈ reqs, strContains q redirectPath = false) →
      waitLoop reqs path₀ = Except.error AuthWaitErr.timeout := by
  intro reqs
  induction reqs with
  | nil =>
    intro path₀ h₀ _
    simp [waitLoop, h₀]
  | cons x xs ih =>
    intro path₀ h₀ hall
    have hx : strContains x redirectPath = false := hall x (List.mem_cons_self x xs)
    simp [waitLoop, h₀]
    exact ih x hx (fun q hq => hall q (List.mem_cons_of_mem x hq))

/-- C4: `wait_for_auth_redirect` returns, for the first inbound request
whose path matches (contains) the configured redirect path, the full
redirect URL `scheme + host + captured path (with query string)`, the
browser having been answered with HTTP 200 and the static confirmation
body; non-matching request paths are dequeued and ignored, and if no
matching request arrives within the timeout window the call fails with a
timeout error. -/
theorem wait_for_auth_redirect_spec :
    (∀ (pre : List String) (p : String) (rest : List String),
        (∀ q ∈ pre, strContains q redirectPath = false) →
        strContains p redirectPath = true →
        wait_for_auth_redirect (pre ++ p :: rest) = Except.ok (fullRedirectUrl p) ∧
        do_GET p = ((200, confirmation_body), p)) ∧
    (∀ reqs : List String, (∀ q ∈ reqs, strContains q redirectPath = false) →
        wait_for_auth_redirect reqs = Except.error AuthWaitErr.timeout) := by
  constructor
  · intro pre p rest hpre hp
    exact ⟨waitLoop_first_match p rest hp pre "" (by decide) hpre, rfl⟩
  · intro reqs hall
    exact waitLoop_timeout reqs "" (by decide) hall

/-- Witness for C4: a favicon request is ignored, then the actual redirect
is reconstructed into the full URL; and a lone favicon request times
out. -/
theorem wait_for_auth_redirect_spec_witness :
    (wait_for_auth_redirect ["/favicon.ico", "/auth?code=abc&state=xyz"] =
        Except.ok (fullRedirectUrl "/auth?code=abc&state=xyz") ∧
      do_GET "/auth?code=abc&state=xyz" = ((200, confirmation_body), "/auth?code=abc&state=xyz")) ∧
    wait_for_auth_redirect ["/favicon.ico"] = Except.error AuthWaitErr.timeout :=
  ⟨wait_for_auth_redirect_spec.1 ["/favicon.ico"] "/auth?code=abc&state=xyz" []
      (by decide) (by decide),
   wait_for_auth_redirect_spec.2 ["/favicon.ico"] (by decide)⟩

/-! Resource traversal (`onenote.py`: `get_notebooks`, `find_notebook`,
`get_sections`, `get_pages`, `get_page_content`) -/

/-- A resource node (notebook / section group / section / page) as the
traversal sees it: the JSON fields the code reads.  `none` models an absent
key. -/
structure Node where
  displayName : Option String := none
  title : Option String := none
  sectionsUrl : Option String := none
  sectionGroupsUrl : Option String := none
  pagesUrl : Option String := none
  contentUrl : Option String := none
  deriving DecidableEq, Repr

/-- Python truthiness of `dict.get(key)` on a string field: `None` and the
empty string are falsy. -/
def truthy : Option String → Bool
  | none => false
  | some s => !(s == "")

/-- A paged collection response: a dict with a `"value"` list of nodes and
an optional `"@odata.nextLink"`.  At the fetch level, `none` models a
response that is not a dict carrying a `"value"` list (the code logs a
warning and yields nothing from it). -/
structure PagedResp where
  value : List Node
  nextLink : Option String := none
  deriving DecidableEq, Repr

/-- The section filter of `get_sections`:
`if section_display_name and section.get("displayName") != section_display_name:
continue` — a falsy (absent or empty) filter keeps every section, otherwise
only sections with exactly that display name are kept. -/
def keepSection (filter : Option String) (s : Node) : Bool :=
  if truthy filter then s.displayName == filter else true

/-- Function `get_sections(s, parent, section_display_name)`: yield the filtered
sections of `parent.sectionsUrl` (when truthy), then recurse into each
group of `parent.sectionGroupsUrl` (when truthy) with the same filter.
`fetch` is the remote state (`_get_json` per URL); `fuel` bounds the
section-group recursion depth so the definition is total. -/
def get_sections (fetch : String → Option PagedResp) :
    Nat → Node → Option String → List Node
  | 0, _, _ => []
  | fuel + 1, parent, filter =>
    (match parent.sectionsUrl with
     | some u =>
       if u == "" then []
       else
         match fetch u with
         | some resp => resp.value.filter (keepSection filter)
         | none => []
     | none => []) ++
    (match parent.sectionGroupsUrl with
     | some u =>
       if u == "" then []
       else
         match fetch u with
         | some resp =>
             (resp.value.map (fun g => get_sections fetch fuel g filter)).flatten
         | none => []
     | none => [])

/-- The `while url:` pagination loop in `get_pages`: fetch, yield every
element of `"value"` in order, follow `"@odata.nextLink"`; stop on a falsy
next URL or a malformed response.  `fuel` bounds the cursor chain length. -/
def paginate (fetch : String → Option PagedResp) : Nat → Option String → List Node
  | 0, _ => []
  | _, none => []
  | fuel + 1, some u =>
    if u == "" then []
    else
      match fetch u with
      | some resp => resp.value ++ paginate fetch fuel resp.nextLink
      | none => []

/-- Function `get_pages(s, notebook_or_section, section_display_name_filter)`: when
the node has no `pagesUrl` key it is a container and its sections are
expanded via `get_sections`; otherwise the node itself is the only source.
Each source's page collection is then paginated in order. -/
def get_pages (fetch : String → Option PagedResp) (fuelS fuelP : Nat)
    (node : Node) (filter : Option String) : List Node :=
  let sources :=
    if node.pagesUrl.isNone then get_sections fetch fuelS node filter else [node]
  (sources.map (fun item => paginate fetch fuelP item.pagesUrl)).flatten

/-- The shape of the `/notebooks` response as `get_notebooks` distinguishes
it: a dict wrapping a `"value"` list, a bare list, or anything else
(logged and degraded to `[]`). -/
inductive NotebooksResp where
  | wrapped (value : List Node)
  | bare (value : List Node)
  | malformed
  deriving DecidableEq, Repr

/-- Function `get_notebooks(s)`. -/
def get_notebooks : NotebooksResp → List Node
  | .wrapped v => v
  | .bare v => v
  | .malformed => []

/-- Function `find_notebook(notebooks, display_name)`: first notebook whose
`displayName` equals the requested name. -/
def find_notebook (notebooks : List Node) (displayName : String) : Option Node :=
  notebooks.find? (fun nb => nb.displayName == some displayName)

/-! The §8 fixture tree for `traverse_pages` (claim C2) -/

def alphaP1 : Node := { title := some "Alpha-p1" }
def alphaP2 : Node := { title := some "Alpha-p2" }
def betaP1 : Node := { title := some "Beta-p1" }
def betaP2 : Node := { title := some "Beta-p2" }
def betaP3 : Node := { title := some "Beta-p3" }
def notesP1 : Node := { title := some "Notes-p1" }

def sectionNotes : Node :=
  { displayName := some "Notes", pagesUrl := some "notes/pages" }

def sectionAlpha : Node :=
  { displayName := some "Alpha", pagesUrl := some "alpha/pages" }

def sectionBeta : Node :=
  { displayName := some "Beta", pagesUrl := some "beta/pages" }

def groupProjects : Node :=
  { displayName := some "Projects", sectionsUrl := some "projects/sections" }

def notebookWork : Node :=
  { displayName := some "Work", sectionsUrl := some "work/sections",
    sectionGroupsUrl := some "work/sectionGroups" }

/-- The remote state of the fixture: Notebook "Work" has the top-level
Section "Notes" (1 page) and the SectionGroup "Projects" holding Section
"Alpha" (2 pages) and Section "Beta", whose page collection is paginated as
a 2-page response with a next-link cursor followed by a 1-page response. -/
def fixtureFetch : String → Option PagedResp
  | "work/sections" => some { value := [sectionNotes] }
  | "work/sectionGroups" => some { value := [groupProjects] }
  | "projects/sections" => some { value := [sectionAlpha, sectionBeta] }
  | "alpha/pages" => some { value := [alphaP1, alphaP2] }
  | "beta/pages" => some { value := [betaP1, betaP2], nextLink := some "beta/pages2" }
  | "beta/pages2" => some { value := [betaP3] }
  | "notes/pages" => some { value := [notesP1] }
  | _ => none

/-- C2 counterexample: on the fixture tree the unfiltered traversal yields
6 pages, not 4, and not in the claimed order (the notebook's direct
section "Notes" is expanded before the section group "Projects", and
"Beta" has 3 pages across its two paged responses); the "Beta"-filtered
traversal yields 3 pages, not 2. -/
theorem traverse_fixture_counterexample :
    get_pages fixtureFetch 3 3 notebookWork none ≠
      [alphaP1, alphaP2, betaP1, betaP2, notesP1] ∧
    (get_pages fixtureFetch 3 3 notebookWork none).length ≠ 4 ∧
    (get_pages fixtureFetch 3 3 notebookWork (some "Beta")).length ≠ 2 := by
  refine ⟨?_, ?_, ?_⟩ <;> decide

/-- C2 (amended): on the fixture tree the unfiltered traversal yields
exactly 6 pages in the order Notes-p1, Alpha-p1, Alpha-p2, Beta-p1,
Beta-p2, Beta-p3 — a container's direct sections come before the sections
reached through its section groups, and Beta's paginated collection
contributes all three of its pages in response order; with section filter
"Beta" it yields exactly Beta's 3 pages. -/
theorem traverse_fixture_order :
    get_pages fixtureFetch 3 3 notebookWork none =
      [notesP1, alphaP1, alphaP2, betaP1, betaP2, betaP3] ∧
    get_pages fixtureFetch 3 3 notebookWork (some "Beta") =
      [betaP1, betaP2, betaP3] := by
  exact ⟨rfl, rfl⟩

/-! Page content (`onenote.py`: `get_page_content`, `_get_content`) -/

/-- A Python runtime error: `_get_content`'s first statement reads the name
`effective_logger`, which that function never defines (and which is not a
module global), so the call raises `NameError` before any request is
made. -/
inductive PyRuntimeErr where
  | nameError
  deriving DecidableEq, Repr

/-- The placeholder marker returned for a page without a `contentUrl`. -/
def no_content_placeholder : String := "<!-- Page has no contentUrl -->"

/-- Function `_get_content(s, url)`: `response = _get(s, url, logger_instance=effective_logger)`
evaluates the undefined name `effective_logger` and raises `NameError`. -/
def get_content (_url : String) : Except PyRuntimeErr String :=
  .error .nameError

/-- Function `get_page_content(s, page)`: with a falsy `contentUrl` return the
placeholder pair; otherwise delegate to `_get_content`. -/
def get_page_content (page : Node) : Except PyRuntimeErr (Node × String) :=
  match page.contentUrl with
  | none => .ok (page, no_content_placeholder)
  | some u =>
    if u == "" then .ok (page, no_content_placeholder)
    else (get_content u).map (fun content => (page, content))

/-- C6: a page without a `contentUrl` does get the placeholder pair, but
for every page with a `contentUrl` the call raises `NameError` (undefined
`effective_logger` in `_get_content`) instead of returning the fetched
content — the code diverges from the claim on the content branch. -/
theorem get_page_content_bug :
    get_page_content { contentUrl := some "https://example.org/content" } =
      Except.error PyRuntimeErr.nameError ∧
    get_page_content { title := some "P" } =
      Except.ok ({ title := some "P" }, no_content_placeholder) := by
  exact ⟨rfl, rfl⟩

/-! Diagnostics of `NotebookNotFound` (`onenote.py`: `NotebookNotFound`,
`_possible_notebooks`, `get_notebook_pages`) -/

/-- Model of `"\n".join(names)` (Python `str.join`). -/
def str_join (sep : String) : List String → String
  | [] => ""
  | [x] => x
  | x :: y :: rest => x ++ sep ++ str_join sep (y :: rest)

/-- Method `NotebookNotFound._possible_notebooks(s)`: re-fetch the notebook list
(the argument is the outcome of that fetch; an exception during it yields
the error text) and render every display name, one per line. -/
def possible_notebooks_msg (fetched : Except Unit NotebooksResp) : String :=
  match fetched with
  | .error _ => "Possible notebooks unknown due to an error."
  | .ok r =>
    let names := (get_notebooks r).map (fun n => n.displayName.getD "Unknown Notebook")
    if names.isEmpty then "Possible notebooks could not be determined."
    else "Maybe:\n" ++ str_join "\n" names ++ "\n"

/-- The message `NotebookNotFound.__init__` builds:
`f'Notebook "{name}" not found. '` plus the possible-notebooks hint. -/
def notebook_not_found_msg (name : String) (fetched : Except Unit NotebooksResp) : String :=
  "Notebook \"" ++ name ++ "\" not found. " ++ possible_notebooks_msg fetched

inductive TraverseErr where
  | notebookNotFound (msg : String)
  deriving DecidableEq, Repr

/-- Function `get_notebook_pages(s, notebook_display_name, section_display_name)`:
fetch the notebooks, resolve the requested name, raise `NotebookNotFound`
(whose message re-fetches the same notebook collection — the remote state
is fixed within the call, so the second fetch returns `nbResp` again) when
there is no match, and stream the pages otherwise. -/
def get_notebook_pages (fetch : String → Option PagedResp) (nbResp : NotebooksResp)
    (fuelS fuelP : Nat) (name : String) (filter : Option String) :
    Except TraverseErr (List Node) :=
  match find_notebook (get_notebooks nbResp) name with
  | some nb => .ok (get_pages fetch fuelS fuelP nb filter)
  | none => .error (.notebookNotFound (notebook_not_found_msg name (.ok nbResp)))

/-! Substring facts about `listContainsSub`, used to show the diagnostic
message carries every notebook name. -/

theorem isPrefixOf_nil_needle (t : List Char) : List.isPrefixOf [] t = true := by
  cases t <;> rfl

theorem isPrefixOf_self_append (n t : List Char) : n.isPrefixOf (n ++ t) = true := by
  induction n with
  | nil => exact isPrefixOf_nil_needle t
  | cons a as ih => simp [List.isPrefixOf, ih]

theorem isPrefixOf_append_right (n : List Char) :
    ∀ h t : List Char, n.isPrefixOf h = true → n.isPrefixOf (h ++ t) = true := by
  induction n with
  | nil => intro h t _; exact isPrefixOf_nil_needle (h ++ t)
  | cons a as ih =>
    intro h t hp
    cases h with
    | nil => simp [List.isPrefixOf] at hp
    | cons b hs =>
      simp only [List.isPrefixOf, Bool.and_eq_true] at hp
      simp [List.isPrefixOf, hp.1, ih hs t hp.2]

theorem listContainsSub_nil_needle (h : List Char) : listContainsSub [] h = true := by
  cases h with
  | nil => rfl
  | cons c rest => simp [listContainsSub, List.isPrefixOf]

theorem listContainsSub_of_isPrefixOf (n h : List Char) (hp : n.isPrefixOf h = true) :
    listContainsSub n h = true := by
  cases h with
  | nil =>
    cases n with
    | nil => rfl
    | cons a as => simp [List.isPrefixOf] at hp
  | cons c rest => simp [listContainsSub, hp]

theorem listContainsSub_cons (n t : List Char) (c : Char)
    (hc : listContainsSub n t = true) : listContainsSub n (c :: t) = true := by
  simp [listContainsSub, hc]

theorem listContainsSub_append_left (n h : List Char) (hc : listContainsSub n h = true) :
    ∀ pre : List Char, listContainsSub n (pre ++ h) = true := by
  intro pre
  induction pre with
  | nil => exact hc
  | cons c cs ih => exact listContainsSub_cons n (cs ++ h) c ih

theorem listContainsSub_append_right (n : List Char) :
    ∀ h t : List Char, listContainsSub n h = true → listContainsSub n (h ++ t) = true := by
  intro h
  induction h with
  | nil =>
    intro t hc
    have : n = [] := by
      cases n with
      | nil => rfl
      | cons a as => simp [listContainsSub, List.isEmpty] at hc
    subst this
    exact listContainsSub_nil_needle t
  | cons c hs ih =>
    intro t hc
    simp only [listContainsSub, Bool.or_eq_true] at hc
    rcases hc with hc | hc
    · exact listContainsSub_of_isPrefixOf n ((c :: hs) ++ t)
        (isPrefixOf_append_right n (c :: hs) t hc)
    · exact listContainsSub_cons n (hs ++ t) c (ih t hc)

theorem listContainsSub_self (n : List Char) : listContainsSub n n = true := by
  have := isPrefixOf_self_append n []
  rw [List.append_nil] at this
  exact listContainsSub_of_isPrefixOf n n this

/-- Every member of a joined name list occurs as a substring of the
join. -/
theorem listContainsSub_str_join (sep : String) :
    ∀ (names : List String) (n : String), n ∈ names →
      listContainsSub n.data (str_join sep names).data = true := by
  intro names
  induction names with
  | nil => intro n hn; cases hn
  | cons x rest ih =>
    intro n hn
    cases rest with
    | nil =>
      have : n = x := by
        rcases List.mem_cons.mp hn with h | h
        · exact h
        · cases h
      subst this
      exact listContainsSub_self n.data
    | cons y t =>
      rcases List.mem_cons.mp hn with h | h
      · subst h
        show listContainsSub n.data (n ++ sep ++ str_join sep (y :: t)).data = true
        have hdata : (n ++ sep ++ str_join sep (y :: t)).data =
            n.data ++ (sep.data ++ (str_join sep (y :: t)).data) := by
          simp [String.data_append, List.append_assoc]
        rw [hdata]
        exact listContainsSub_append_right n.data n.data _ (listContainsSub_self n.data)
      · have hrec := ih n h
        show listContainsSub n.data (x ++ sep ++ str_join sep (y :: t)).data = true
        have hdata : (x ++ sep ++ str_join sep (y :: t)).data =
            (x.data ++ sep.data) ++ (str_join sep (y :: t)).data := by
          simp [String.data_append, List.append_assoc]
        rw [hdata]
        exact listContainsSub_append_left n.data _ hrec _

/-- C9: when no notebook's `displayName` equals the requested name,
`get_notebook_pages` raises `NotebookNotFound` and its message contains,
as a substring, every display name of the notebooks returned by the
lookup (missing names render as the `"Unknown Notebook"` placeholder). -/
theorem notebook_not_found_lists_names (fetch : String → Option PagedResp)
    (nbResp : NotebooksResp) (fuelS fuelP : Nat) (name : String) (filter : Option String)
    (hmiss : ∀ nb ∈ get_notebooks nbResp, nb.displayName ≠ some name) :
    ∃ msg, get_notebook_pages fetch nbResp fuelS fuelP name filter =
        Except.error (TraverseErr.notebookNotFound msg) ∧
      ∀ nb ∈ get_notebooks nbResp,
        strContains msg (nb.displayName.getD "Unknown Notebook") = true := by
  have hfind : find_notebook (get_notebooks nbResp) name = none := by
    apply List.find?_eq_none.mpr
    intro nb hnb
    simpa using hmiss nb hnb
  refine ⟨notebook_not_found_msg name (.ok nbResp), ?_, ?_⟩
  · simp [get_notebook_pages, hfind]
  · intro nb hnb
    set names := (get_notebooks nbResp).map (fun n => n.displayName.getD "Unknown Notebook")
      with hnames
    have hmem : nb.displayName.getD "Unknown Notebook" ∈ names := by
      rw [hnames]
      exact List.mem_map_of_mem _ hnb
    have hne : ¬ names.isEmpty := by
      rcases names with _ | _
      · cases hmem
      · simp
    have hjoin := listContainsSub_str_join "\n" names _ hmem
    have hform : (notebook_not_found_msg name (Except.ok nbResp)).data =
        (("Notebook \"" : String).data ++ (name.data ++
            (("\" not found. " : String).data ++ ("Maybe:\n" : String).data))) ++
          ((str_join "\n" names).data ++ ("\n" : String).data) := by
      simp [notebook_not_found_msg, possible_notebooks_msg, hne, ← hnames,
        String.data_append, List.append_assoc]
    show listContainsSub (nb.displayName.getD "Unknown Notebook").data
      (notebook_not_found_msg name (Except.ok nbResp)).data = true
    rw [hform]
    exact listContainsSub_append_left _ _
      (listContainsSub_append_right _ _ _ hjoin) _

/-- Witness for C9: a two-notebook lookup missing the requested name
produces a `NotebookNotFound` whose message contains both display
names. -/
theorem notebook_not_found_lists_names_witness :
    ∃ msg, get_notebook_pages fixtureFetch
        (NotebooksResp.wrapped [{ displayName := some "Home" }, { displayName := some "Work" }])
        3 3 "Archive" none = Except.error (TraverseErr.notebookNotFound msg) ∧
      ∀ nb ∈ get_notebooks
          (NotebooksResp.wrapped [{ displayName := some "Home" }, { displayName := some "Work" }]),
        strContains msg (nb.displayName.getD "Unknown Notebook") = true :=
  notebook_not_found_lists_names fixtureFetch
    (NotebooksResp.wrapped [{ displayName := some "Home" }, { displayName := some "Work" }])
    3 3 "Archive" none (by decide)

/-! Export loop (`interactor.py`: `OneNoteInteractor.dump_notebook`) -/

/-- Check `if max_pages is not None and pages_exported >= max_pages: break`. -/
def breakAfter (maxPages : Option Nat) (exported : Nat) : Bool :=
  match maxPages with
  | some m => decide (m ≤ exported)
  | none => false

/-- Check `if start_page is not None and page_counter <= start_page:
should_process = False`. -/
def skipPage (startPage : Option Nat) (counter : Nat) : Bool :=
  match startPage with
  | some k => decide (counter ≤ k)
  | none => false

/-- The `for page in self.core.get_notebook_pages(...)` loop of
`dump_notebook`: `counter` is `page_counter` and `exported` is
`pages_exported` so far.  Returns the final `pages_exported` together with
the pages handed to `pipe.add_page`, in order.  Note the `break` check runs
at the end of every iteration, whether or not the page was processed. -/
def dumpLoop (startPage maxPages : Option Nat) :
    List Node → Nat → Nat → Nat × List Node
  | [], _, exported => (exported, [])
  | p :: rest, counter, exported =>
    let counter' := counter + 1
    if skipPage startPage counter' then
      if breakAfter maxPages exported then (exported, [])
      else dumpLoop startPage maxPages rest counter' exported
    else
      let exported' := exported + 1
      if breakAfter maxPages exported' then (exported', [p])
      else
        let r := dumpLoop startPage maxPages rest counter' exported'
        (r.1, p :: r.2)

/-- The fields of `dump_notebook`'s result dict that depend on the page
loop: `total_pages` (the final `pages_exported`) and the exported pages. -/
structure DumpResult where
  total_pages : Nat
  exported : List Node
  deriving DecidableEq, Repr

/-- Function `dump_notebook(...)` run over the page sequence the traversal
produces: the loop starts with `page_counter = 0`, `pages_exported = 0`. -/
def dump_notebook (pages : List Node) (startPage maxPages : Option Nat) : DumpResult :=
  let r := dumpLoop startPage maxPages pages 0 0
  { total_pages := r.1, exported := r.2 }

/-- C10 counterexample: with `max_pages = 0` and no `start_page` on a
one-page sequence, `dump_notebook` still exports that page (the limit
check runs only at the end of the iteration, after the page was already
handed to the pipeline), so the number of exported pages exceeds
`max_pages` — the claim that iteration stops as soon as the exported count
reaches `max_pages` fails at this input. -/
theorem dump_max_pages_zero_counterexample :
    (dump_notebook [{ title := some "p1" }] none (some 0)).total_pages = 1 ∧
    (dump_notebook [{ title := some "p1" }] none (some 0)).exported =
      [{ title := some "p1" }] ∧
    ¬ (dump_notebook [{ title := some "p1" }] none (some 0)).total_pages ≤ 0 := by
  refine ⟨?_, ?_, ?_⟩ <;> decide

/-- Helper: the loop with `start_page = k` and `max_pages = m`, entered
with `counter = c` pages already seen and `exported = e < m` pages already
exported, exports the next `m - e` pages after skipping to page `k + 1`
(relative: after dropping `k - c` more pages). -/
theorem dumpLoop_some_max (k m : Nat) :
    ∀ (pages : List Node) (c e : Nat), e < m →
      dumpLoop (some k) (some m) pages c e =
        (e + ((pages.drop (k - c)).take (m - e)).length,
          (pages.drop (k - c)).take (m - e)) := by
  intro pages
  induction pages with
  | nil => intro c e _; simp [dumpLoop]
  | cons p rest ih =>
    intro c e he
    by_cases hk : c + 1 ≤ k
    · have hskip : skipPage (some k) (c + 1) = true := by simp [skipPage, hk]
      have hbreak : breakAfter (some m) e = false := by simp [breakAfter]; omega
      have hd : k - c = (k - (c + 1)) + 1 := by omega
      simp only [dumpLoop, hskip, hbreak, if_true, if_false, Bool.false_eq_true]
      rw [ih (c + 1) e he, hd, List.drop_succ_cons]
    · have hskip : skipPage (some k) (c + 1) = false := by simp [skipPage]; omega
      have h0 : k - c = 0 := by omega
      by_cases hm2 : m ≤ e + 1
      · have hbreak : breakAfter (some m) (e + 1) = true := by simp [breakAfter, hm2]
        have hme : m - e = 1 := by omega
        simp [dumpLoop, hskip, hbreak, h0, hme]
      · have hbreak : breakAfter (some m) (e + 1) = false := by simp [breakAfter]; omega
        have h0' : k - (c + 1) = 0 := by omega
        have hme : m - e = (m - (e + 1)) + 1 := by omega
        simp only [dumpLoop, hskip, hbreak, if_false, Bool.false_eq_true]
        rw [ih (c + 1) (e + 1) (by omega), h0, h0', hme]
        simp [List.take_succ_cons]
        omega

/-- Helper: the loop with `start_page = k` and no `max_pages` exports every
page after the skipped prefix. -/
theorem dumpLoop_no_max (k : Nat) :
    ∀ (pages : List Node) (c e : Nat),
      dumpLoop (some k) none pages c e =
        (e + (pages.drop (k - c)).length, pages.drop (k - c)) := by
  intro pages
  induction pages with
  | nil => intro c e; simp [dumpLoop]
  | cons p rest ih =>
    intro c e
    by_cases hk : c + 1 ≤ k
    · have hskip : skipPage (some k) (c + 1) = true := by simp [skipPage, hk]
      have hd : k - c = (k - (c + 1)) + 1 := by omega
      simp only [dumpLoop, hskip, if_true, breakAfter, Bool.false_eq_true, if_false]
      rw [ih (c + 1) e, hd, List.drop_succ_cons]
    · have hskip : skipPage (some k) (c + 1) = false := by simp [skipPage]; omega
      have h0 : k - c = 0 := by omega
      have h0' : k - (c + 1) = 0 := by omega
      simp only [dumpLoop, hskip, breakAfter, Bool.false_eq_true, if_false]
      rw [ih (c + 1) (e + 1), h0, h0']
      simp
      omega

/-- C10 (amended): with `start_page = k`, the first `k` pages of the
sequence are consumed but not exported; with `max_pages = m ≥ 1` the next
`m` pages (or all that remain) are exported and iteration stops right
after the `m`-th export, and without `max_pages` every page after the
skipped prefix is exported; `total_pages` is exactly the number of pages
exported, not the number seen.  The bound `1 ≤ m` excludes
`max_pages = 0`, where the counterexample shows the code deviating from
the claimed stop condition. -/
theorem dump_notebook_start_max (pages : List Node) (k m : Nat) (hm : 1 ≤ m) :
    dump_notebook pages (some k) (some m) =
      { total_pages := ((pages.drop k).take m).length,
        exported := (pages.drop k).take m } ∧
    dump_notebook pages (some k) none =
      { total_pages := (pages.drop k).length, exported := pages.drop k } := by
  constructor
  · have h := dumpLoop_some_max k m pages 0 0 (by omega)
    simp only [Nat.sub_zero, Nat.zero_add] at h
    simp [dump_notebook, h]
  · have h := dumpLoop_no_max k pages 0 0
    simp only [Nat.sub_zero, Nat.zero_add] at h
    simp [dump_notebook, h]

/-- Witness for C10 (amended): skipping 1 page and exporting at most 1
page of a 3-page sequence exports exactly the second page; without
`max_pages` it exports the second and third. -/
theorem dump_notebook_start_max_witness :
    dump_notebook [{ title := some "P1" }, { title := some "P2" }, { title := some "P3" }]
        (some 1) (some 1) = { total_pages := 1, exported := [{ title := some "P2" }] } ∧
    dump_notebook [{ title := some "P1" }, { title := some "P2" }, { title := some "P3" }]
        (some 1) none =
      { total_pages := 2, exported := [{ title := some "P2" }, { title := some "P3" }] } := by
  have h := dump_notebook_start_max
    [{ title := some "P1" }, { title := some "P2" }, { title := some "P3" }] 1 1 (by norm_num)
  exact ⟨h.1, h.2⟩

end OnenoteDump
